import Mathlib

/-!
Verification development for the EDITO STAC substring-search script
(`A_general_scripts/6_stac_metadata_search.py`).

The script's data is JSON fetched over HTTP.  We shallow-embed JSON values as
the inductive type `Json` (Python strings become `List Char`, Python ints
become `Int`; floats do not occur in any property under study), and embed each
Python helper of the script as a Lean function over `Json`.  Python semantics
used by the script (truthiness, `dict.get`, `str()`, `str.lower()`, `in`
substring test, `str.strip()`, `str.split`) are modelled explicitly below.
HTTP fetching is abstracted as a function from URLs to optional JSON
responses (`none` models a non-success response, which the script lets
`raise_for_status` turn into an exception).  Exceptions are modelled with
`Except PyErr`.
-/

/-- Characters of a string literal, used to write Python strings compactly. -/
def tl (s : String) : List Char := s.toList

/-- Single-quote character (written via `Char.ofNat` to keep literals simple). -/
def squote : Char := Char.ofNat 39

/-- Double-quote character. -/
def dquote : Char := Char.ofNat 34

/-- Backslash character. -/
def bslash : Char := Char.ofNat 92

/-- JSON-like values as produced by `requests.Response.json()`:
`None`, booleans, numbers, strings, lists and dicts.  Dicts are modelled as
association lists in insertion order (Python dicts preserve insertion order;
keys coming from parsed JSON are unique, and lookup takes the first match). -/
inductive Json where
  | null
  | bool (b : Bool)
  | num (n : Int)
  | str (s : List Char)
  | arr (xs : List Json)
  | obj (kvs : List (List Char × Json))

/-- Entries of a Python dict holding JSON values. -/
abbrev PyDict := List (List Char × Json)

/-- Exceptions the script can raise on the paths under study:
`httpError` models `requests.HTTPError` out of `raise_for_status`, and
`attributeError` models `AttributeError` from calling a dict method on a
non-dict value. -/
inductive PyErr where
  | httpError
  | attributeError

/-- Python `dict.get(key)`: the stored value, or `none` when the key is absent. -/
def pyGet : PyDict → List Char → Option Json
  | [], _ => none
  | (k, v) :: rest, key => if k = key then some v else pyGet rest key

/-- Python `dict.get(key, default)`. -/
def pyGetD (kvs : PyDict) (key : List Char) (d : Json) : Json :=
  (pyGet kvs key).getD d

/-- Python truthiness of a JSON-like value (`bool(x)`). -/
def pyTruthy : Json → Bool
  | .null => false
  | .bool b => b
  | .num n => n != 0
  | .str s => !s.isEmpty
  | .arr xs => !xs.isEmpty
  | .obj kvs => !kvs.isEmpty

/-- Python `str.lower()`, restricted to the ASCII case mapping. -/
def lowerL (s : List Char) : List Char := s.map Char.toLower

/-- Escape one character the way Python `repr` escapes string contents for a
chosen quote character `q` (backslash, the quote, newline, carriage return,
tab; other characters are kept verbatim — the inputs under study are
printable ASCII). -/
def pyEscChar (q : Char) (c : Char) : List Char :=
  if c = bslash then [bslash, bslash]
  else if c = q then [bslash, q]
  else if c = Char.ofNat 10 then [bslash, 'n']
  else if c = Char.ofNat 13 then [bslash, 'r']
  else if c = Char.ofNat 9 then [bslash, 't']
  else [c]

/-- Python `repr` of a string: single-quoted, switching to double quotes when
the string contains a single quote but no double quote. -/
def pyReprStr (s : List Char) : List Char :=
  let q := if s.contains squote && !(s.contains dquote) then dquote else squote
  q :: s.flatMap (pyEscChar q) ++ [q]

mutual
/-- Python `repr()` of a JSON-like value. -/
def pyRepr : Json → List Char
  | .null => tl "None"
  | .bool true => tl "True"
  | .bool false => tl "False"
  | .num n => (toString n).toList
  | .str s => pyReprStr s
  | .arr xs => '[' :: pyReprArr xs ++ [']']
  | .obj kvs => Char.ofNat 123 :: pyReprObj kvs ++ [Char.ofNat 125]

/-- Comma-separated `repr`s of list elements. -/
def pyReprArr : List Json → List Char
  | [] => []
  | [x] => pyRepr x
  | x :: y :: rest => pyRepr x ++ tl ", " ++ pyReprArr (y :: rest)

/-- Comma-separated `repr`s of dict entries. -/
def pyReprObj : PyDict → List Char
  | [] => []
  | [(k, v)] => pyReprStr k ++ tl ": " ++ pyRepr v
  | (k, v) :: e :: rest => pyReprStr k ++ tl ": " ++ pyRepr v ++ tl ", " ++ pyReprObj (e :: rest)
end

/-- Python `str()` of a JSON-like value: a string is itself, anything else is
its `repr`. -/
def pyStr : Json → List Char
  | .str s => s
  | .null => pyRepr .null
  | .bool b => pyRepr (.bool b)
  | .num n => pyRepr (.num n)
  | .arr xs => pyRepr (.arr xs)
  | .obj kvs => pyRepr (.obj kvs)

/-- Test whether `t` is a prefix of `s` (helper for the Python `in` operator). -/
def pyStartsWith : List Char → List Char → Bool
  | [], _ => true
  | _ :: _, [] => false
  | a :: as, b :: bs => a == b && pyStartsWith as bs

/-- Python `t in s` substring test on strings. -/
def pySubstr (t : List Char) : List Char → Bool
  | [] => pyStartsWith t []
  | c :: rest => pyStartsWith t (c :: rest) || pySubstr t rest

theorem pyStartsWith_iff (t s : List Char) :
    pyStartsWith t s = true ↔ ∃ r, s = t ++ r := by
  induction t generalizing s with
  | nil => simp [pyStartsWith]
  | cons a as ih =>
    cases s with
    | nil => simp [pyStartsWith]
    | cons b bs =>
      simp only [pyStartsWith, Bool.and_eq_true, beq_iff_eq, ih, List.cons_append,
        List.cons.injEq]
      constructor
      · rintro ⟨rfl, r, rfl⟩
        exact ⟨r, rfl, rfl⟩
      · rintro ⟨r, rfl, rfl⟩
        exact ⟨rfl, r, rfl⟩

theorem pySubstr_iff (t s : List Char) :
    pySubstr t s = true ↔ ∃ l r, s = l ++ t ++ r := by
  induction s with
  | nil =>
    simp only [pySubstr, pyStartsWith_iff]
    constructor
    · rintro ⟨r, h⟩
      exact ⟨[], r, by simpa using h⟩
    · rintro ⟨l, r, h⟩
      cases l with
      | nil => exact ⟨r, by simpa using h⟩
      | cons x xs => simp at h
  | cons c rest ih =>
    simp only [pySubstr, Bool.or_eq_true, pyStartsWith_iff, ih]
    constructor
    · rintro (⟨r, h⟩ | ⟨l, r, h⟩)
      · exact ⟨[], r, by simpa using h⟩
      · exact ⟨c :: l, r, by simp [h]⟩
    · rintro ⟨l, r, h⟩
      cases l with
      | nil => exact .inl ⟨r, by simpa using h⟩
      | cons x xs =>
        simp only [List.cons_append, List.cons.injEq] at h
        exact .inr ⟨xs, r, by simp [h.1, h.2]⟩

mutual
/-- Embeds `_iter_strings`: yield all string values recursively (never dict
keys), in document order.  `None`, booleans and numbers contribute nothing. -/
def iterStrings : Json → List (List Char)
  | .null => []
  | .bool _ => []
  | .num _ => []
  | .str s => [s]
  | .arr xs => iterStringsArr xs
  | .obj kvs => iterStringsObj kvs

/-- Strings yielded from the elements of a JSON list, in order. -/
def iterStringsArr : List Json → List (List Char)
  | [] => []
  | x :: xs => iterStrings x ++ iterStringsArr xs

/-- Strings yielded from the values of a JSON dict, in order (keys skipped). -/
def iterStringsObj : PyDict → List (List Char)
  | [] => []
  | (_, v) :: kvs => iterStrings v ++ iterStringsObj kvs
end

/-- Embeds `_contains_term`: scan every yielded string and report whether the
(pre-lowered) term occurs in its lower-cased form. -/
def contains_term (value : Json) (termLower : List Char) : Bool :=
  (iterStrings value).any fun s => pySubstr termLower (lowerL s)

/-- A string `s` is a string leaf of a JSON tree reachable through list
elements and dict values only (never through dict keys). -/
inductive IsStringLeaf : Json → List Char → Prop
  | strLeaf (s : List Char) : IsStringLeaf (.str s) s
  | arrMem {xs : List Json} {v : Json} {s : List Char} :
      v ∈ xs → IsStringLeaf v s → IsStringLeaf (.arr xs) s
  | objMem {kvs : PyDict} {k : List Char} {v : Json} {s : List Char} :
      (k, v) ∈ kvs → IsStringLeaf v s → IsStringLeaf (.obj kvs) s

mutual
theorem mem_iterStrings : ∀ (T : Json) (s : List Char),
    s ∈ iterStrings T ↔ IsStringLeaf T s := by
  intro T s
  cases T with
  | null => simp [iterStrings]; intro h; cases h
  | bool b => simp [iterStrings]; intro h; cases h
  | num n => simp [iterStrings]; intro h; cases h
  | str u =>
    simp only [iterStrings, List.mem_singleton]
    constructor
    · rintro rfl; exact .strLeaf s
    · rintro h; cases h; rfl
  | arr xs =>
    rw [iterStrings, mem_iterStringsArr]
    constructor
    · rintro ⟨x, hx, hs⟩; exact .arrMem hx hs
    · rintro h; cases h with | arrMem hx hs => exact ⟨_, hx, hs⟩
  | obj kvs =>
    rw [iterStrings, mem_iterStringsObj]
    constructor
    · rintro ⟨k, v, hkv, hs⟩; exact .objMem hkv hs
    · rintro h; cases h with | objMem hkv hs => exact ⟨_, _, hkv, hs⟩

theorem mem_iterStringsArr : ∀ (xs : List Json) (s : List Char),
    s ∈ iterStringsArr xs ↔ ∃ x ∈ xs, IsStringLeaf x s := by
  intro xs s
  cases xs with
  | nil => simp [iterStringsArr]
  | cons x rest =>
    rw [iterStringsArr]
    simp only [List.mem_append, mem_iterStrings x s, mem_iterStringsArr rest s,
      List.mem_cons]
    constructor
    · rintro (h | ⟨y, hy, hs⟩)
      · exact ⟨x, .inl rfl, h⟩
      · exact ⟨y, .inr hy, hs⟩
    · rintro ⟨y, (rfl | hy), hs⟩
      · exact .inl hs
      · exact .inr ⟨y, hy, hs⟩

theorem mem_iterStringsObj : ∀ (kvs : PyDict) (s : List Char),
    s ∈ iterStringsObj kvs ↔ ∃ k v, (k, v) ∈ kvs ∧ IsStringLeaf v s := by
  intro kvs s
  cases kvs with
  | nil => simp [iterStringsObj]
  | cons kv rest =>
    obtain ⟨k, v⟩ := kv
    rw [iterStringsObj]
    simp only [List.mem_append, mem_iterStrings v s, mem_iterStringsObj rest s,
      List.mem_cons, Prod.mk.injEq]
    constructor
    · rintro (h | ⟨k', v', hkv, hs⟩)
      · exact ⟨k, v, .inl ⟨rfl, rfl⟩, h⟩
      · exact ⟨k', v', .inr hkv, hs⟩
    · rintro ⟨k', v', (⟨rfl, rfl⟩ | hkv), hs⟩
      · exact .inl hs
      · exact .inr ⟨k', v', hkv, hs⟩
end

/-- C1: `containsTerm(T, t)` is true iff some string leaf of `T`, reachable
through dict values and list elements only (never dict keys), contains `t`
as a case-insensitive substring. -/
theorem contains_term_correct (T : Json) (t : List Char) :
    contains_term T (lowerL t) = true ↔
      ∃ s, IsStringLeaf T s ∧ ∃ l r, lowerL s = l ++ lowerL t ++ r := by
  rw [contains_term, List.any_eq_true]
  constructor
  · rintro ⟨s, hs, hsub⟩
    exact ⟨s, (mem_iterStrings T s).1 hs, (pySubstr_iff _ _).1 hsub⟩
  · rintro ⟨s, hs, hinf⟩
    exact ⟨s, (mem_iterStrings T s).2 hs, (pySubstr_iff _ _).2 hinf⟩

/-- Embeds `term_rx.search(s)` where `term_rx = re.compile(re.escape(query),
re.IGNORECASE)`: because the query is regex-escaped, the search succeeds
exactly when the query occurs in `s` case-insensitively. -/
def rx_search (query s : List Char) : Bool :=
  pySubstr (lowerL query) (lowerL s)

/-- Embeds `_matching_assets`: capture assets whose key, href or title match
the escaped query regex.  `feature.get("assets") or {}` maps a falsy value to
an empty dict; a remaining non-dict value yields no assets; non-dict asset
entries are skipped.  Each captured asset is the dict
`(key, type, href)` built by the script. -/
def matching_assets (feature : PyDict) (query : List Char) : List PyDict :=
  let a0 := (pyGet feature (tl "assets")).getD .null
  let assets := if pyTruthy a0 then a0 else .obj []
  match assets with
  | .obj akvs =>
      akvs.flatMap fun ka =>
        match ka.2 with
        | .obj asset =>
            let href := (pyGet asset (tl "href")).getD .null
            let title := (pyGet asset (tl "title")).getD .null
            if rx_search query ka.1
                || (match href with | .str h => rx_search query h | _ => false)
                || (match title with | .str t => rx_search query t | _ => false)
            then [[(tl "key", .str ka.1),
                   (tl "type", (pyGet asset (tl "type")).getD .null),
                   (tl "href", href)]]
            else []
        | _ => []
  | _ => []

/-- C4: an item whose `assets` field is a sequence (rather than a mapping)
yields zero matching assets, for every query, and no exception is raised
(the embedding is a total function). -/
theorem matching_assets_of_seq (feature : PyDict) (q : List Char) (xs : List Json)
    (h : pyGet feature (tl "assets") = some (.arr xs)) :
    matching_assets feature q = [] := by
  unfold matching_assets
  rw [h]
  cases xs <;> rfl

/-- Witness for C4 at a concrete item whose `assets` is a non-empty list. -/
theorem matching_assets_of_seq_witness :
    pyGet [(tl "assets", Json.arr [.str (tl "x")])] (tl "assets")
        = some (.arr [.str (tl "x")]) ∧
      matching_assets [(tl "assets", Json.arr [.str (tl "x")])] (tl "x") = [] :=
  ⟨rfl, matching_assets_of_seq _ _ _ rfl⟩

/-- Embeds `_viewer_url`: the fixed viewer template with the collection and
item ids appended verbatim (the constant part of the template uses
`~2F`-encoded slashes, but the inserted ids are not encoded). -/
def viewer_url (collection_id item_id : List Char) : List Char :=
  tl "https://viewer.dive.edito.eu/feature/https:~2F~2Fapi.dive.edito.eu~2Fdata~2Fcollections~2F"
    ++ collection_id ++ tl "~2Fitems~2F" ++ item_id

/-- Modelled from the spec: the fixed encoding scheme of the viewer template
applied to a path segment, replacing each slash by `~2F` (the scheme visibly
used by the template's constant part). -/
def specPathEncode (s : List Char) : List Char :=
  s.flatMap fun c => if c = '/' then tl "~2F" else [c]

/-- Modelled from the spec: the viewer URL with both inserted path segments
percent-encoded into the fixed template, as the spec describes. -/
def specViewerUrl (collection_id item_id : List Char) : List Char :=
  tl "https://viewer.dive.edito.eu/feature/https:~2F~2Fapi.dive.edito.eu~2Fdata~2Fcollections~2F"
    ++ specPathEncode collection_id ++ tl "~2Fitems~2F" ++ specPathEncode item_id

/-- C7 counterexample: for the collection id `a/b` and item id `c`, the code
inserts the id verbatim, which differs from the spec's encoded form. -/
theorem viewer_url_not_encoded :
    viewer_url (tl "a/b") (tl "c") ≠ specViewerUrl (tl "a/b") (tl "c") := by
  decide

theorem specPathEncode_length (s : List Char) :
    (specPathEncode s).length = s.length + 2 * s.count '/' := by
  induction s with
  | nil => rfl
  | cons c rest ih =>
    have hstep : specPathEncode (c :: rest)
        = (if c = '/' then tl "~2F" else [c]) ++ specPathEncode rest := by
      simp [specPathEncode, List.flatMap_cons]
    by_cases h : c = '/'
    · rw [hstep, if_pos h, List.length_append, ih, h, List.count_cons]
      simp [tl]
      omega
    · rw [hstep, if_neg h, List.length_append, ih, List.count_cons]
      simp [h]
      omega

theorem specPathEncode_of_no_slash {s : List Char} (h : '/' ∉ s) :
    specPathEncode s = s := by
  induction s with
  | nil => rfl
  | cons c rest ih =>
    have hc : c ≠ '/' := fun hc => h (hc ▸ List.mem_cons_self c rest)
    have hr : '/' ∉ rest := fun hr => h (List.mem_cons_of_mem c hr)
    simp [specPathEncode, (fun hcc => hc hcc : ¬ c = '/'), List.flatMap_cons] at *
    exact ih hr

/-- C7 amended: the ids are inserted verbatim, so the constructed viewer URL
agrees with the spec's encoded form exactly when neither id contains a slash
(the one character the template's fixed `~2F` scheme encodes). -/
theorem viewer_url_amended (cid iid : List Char) :
    viewer_url cid iid = specViewerUrl cid iid ↔ ('/' ∉ cid ∧ '/' ∉ iid) := by
  constructor
  · intro h
    have hlen := congrArg List.length h
    simp only [viewer_url, specViewerUrl, List.length_append,
      specPathEncode_length] at hlen
    have hcid : cid.count '/' = 0 := by omega
    have hiid : iid.count '/' = 0 := by omega
    exact ⟨by simpa using List.count_eq_zero.1 hcid,
      by simpa using List.count_eq_zero.1 hiid⟩
  · rintro ⟨h1, h2⟩
    simp [viewer_url, specViewerUrl, specPathEncode_of_no_slash h1,
      specPathEncode_of_no_slash h2]

/-- Python `isinstance(x, str) and x` guard: the string when the value is a
non-empty string, otherwise nothing. -/
def nonemptyStr : Option Json → Option (List Char)
  | some (.str s) => if s.isEmpty then none else some s
  | _ => none

/-- Embeds `_extract_datetime`: read `properties` (falsy value degrades to an
empty dict, non-dict value yields `None`), preferring a non-empty string
`datetime` then `start_datetime`. -/
def extract_datetime (feature : PyDict) : Option (List Char) :=
  let p0 := (pyGet feature (tl "properties")).getD .null
  let props := if pyTruthy p0 then p0 else .obj []
  match props with
  | .obj pkvs =>
      match nonemptyStr (pyGet pkvs (tl "datetime")) with
      | some s => some s
      | none => nonemptyStr (pyGet pkvs (tl "start_datetime"))
  | _ => none

/-- Embeds the loop of `_get_next_link`: first link dict whose `rel` equals
the string `next` and whose `href` is a string. -/
def findNext : List Json → Option (List Char)
  | [] => none
  | l :: rest =>
      match l with
      | .obj lkvs =>
          match pyGet lkvs (tl "rel"), pyGet lkvs (tl "href") with
          | some (.str r), some (.str h) =>
              if r = tl "next" then some h else findNext rest
          | _, _ => findNext rest
      | _ => findNext rest

/-- Embeds `_get_next_link`: `fc.get("links") or []` (falsy degrades to an
empty list), non-list values yield `None`, then scan for a `next` link. -/
def get_next_link (fckvs : PyDict) : Option (List Char) :=
  let l0 := (pyGet fckvs (tl "links")).getD .null
  let links := if pyTruthy l0 then l0 else .arr []
  match links with
  | .arr ls => findNext ls
  | _ => none

/-- The `Match` dataclass of the script.  `product_identifier` and
`item_title` are always strings there (built with `str(...)`); `datetime` is
`str | None`; `matching_assets` holds the asset dicts built by
`_matching_assets`. -/
structure Match where
  item_id : List Char
  collection : List Char
  product_identifier : List Char
  item_title : List Char
  datetime : Option (List Char)
  api_item_url : List Char
  viewer_url : List Char
  matching_assets : List PyDict

/-- Embeds the per-feature body of the scan loop in `_scan_collection_items`
(lines 320–344): skip non-dict features, skip features the term scan rejects,
read `id`, `properties.productIdentifier` and `properties.title` through
`str(feature.get(..., default))` — note that
`feature.get("properties", {}).get(...)` raises `AttributeError` when
`properties` is present but not a dict — skip the feature when any of the
three is empty, then build a `Match`. -/
def processFeature (base cid qLower query : List Char) (feature : Json) :
    Except PyErr (Option Match) :=
  match feature with
  | .obj kvs =>
      if contains_term (.obj kvs) qLower then
        let item_id := pyStr (pyGetD kvs (tl "id") (.str []))
        match pyGetD kvs (tl "properties") (.obj []) with
        | .obj pkvs =>
            let product_identifier := pyStr (pyGetD pkvs (tl "productIdentifier") (.str []))
            let item_title := pyStr (pyGetD pkvs (tl "title") (.str []))
            if item_id.isEmpty || product_identifier.isEmpty || item_title.isEmpty then
              .ok none
            else
              let item_collection :=
                match pyGet kvs (tl "collection") with
                | some v => if pyTruthy v then pyStr v else cid
                | none => cid
              .ok (some
                { item_id := item_id
                  collection := item_collection
                  product_identifier := product_identifier
                  item_title := item_title
                  datetime := extract_datetime kvs
                  api_item_url := base ++ tl "/collections/" ++ item_collection
                    ++ tl "/items/" ++ item_id
                  viewer_url := viewer_url item_collection item_id
                  matching_assets := matching_assets kvs query })
        | _ => .error .attributeError
      else .ok none
  | _ => .ok none

/-- Process the features of one page in order, collecting the matches; the
first raised exception aborts the page. -/
def processFeatures (base cid qLower query : List Char) :
    List Json → Except PyErr (List Match)
  | [] => .ok []
  | f :: rest =>
      match processFeature base cid qLower query f with
      | .error e => .error e
      | .ok m? =>
          match processFeatures base cid qLower query rest with
          | .error e => .error e
          | .ok ms => .ok (match m? with | some m => m :: ms | none => ms)

/-- Embeds `features = fc.get("features") or []` followed by the
`isinstance(features, list)` guard: a falsy value (including an empty list)
and a truthy non-list value both collapse to the empty list. -/
def getFeatures (kvs : PyDict) : List Json :=
  match pyGet kvs (tl "features") with
  | some (.arr xs) => xs
  | _ => []

/-- The first page URL
of the scan: base, then `/collections/`, the collection id, and
`/items?limit=` followed by the page size, as the f-string at line 303
builds it. -/
def initialUrl (base cid : List Char) (limit : Int) : List Char :=
  base ++ tl "/collections/" ++ cid ++ tl "/items?limit=" ++ (toString limit).toList

/-- Embeds the pagination loop of `_scan_collection_items` (lines 308–352).
The loop `while next_url and page < max_pages` with `page += 1` at the top is
rendered with the remaining page budget as fuel (`fuel = max_pages - page`),
so the `some url, fuel + 1` case is one loop iteration: fetch (a failing
fetch raises), collect this page's matches, extend the accumulators, break
when `stop_on_first_hit` is set and the page had matches, otherwise follow
the `next` link.  A `None` or empty (falsy) `next_url`, or an exhausted page
budget, ends the loop. -/
def scanGo (server : List Char → Option Json) (base cid query qLower : List Char)
    (stop : Bool) : Option (List Char) → Nat → List Match → Nat →
    Except PyErr (List Match × Nat)
  | none, _, acc, hits => .ok (acc, hits)
  | some _, 0, acc, hits => .ok (acc, hits)
  | some url, fuel + 1, acc, hits =>
      if url.isEmpty then .ok (acc, hits)
      else
        match server url with
        | none => .error .httpError
        | some fc =>
            match fc with
            | .obj kvs =>
                match processFeatures base cid qLower query (getFeatures kvs) with
                | .error e => .error e
                | .ok pm =>
                    if pm.isEmpty then
                      scanGo server base cid query qLower stop (get_next_link kvs) fuel acc hits
                    else if stop then .ok (acc ++ pm, hits + pm.length)
                    else
                      scanGo server base cid query qLower stop (get_next_link kvs) fuel
                        (acc ++ pm) (hits + pm.length)
            | _ => .error .attributeError

/-- Embeds `_scan_collection_items`: lower the query once, start at the first
page URL with the full page budget and empty accumulators.  (A negative
`max_pages` makes the Python loop run zero times, like budget `0` here.) -/
def scan_collection_items (server : List Char → Option Json) (base cid query : List Char)
    (limit : Int) (maxPages : Nat) (stop : Bool) : Except PyErr (List Match × Nat) :=
  scanGo server base cid query (lowerL query) stop (some (initialUrl base cid limit))
    maxPages [] 0

/-- C3: on a feature that matches the query but whose `properties` field is a
sequence rather than a mapping, the scan body raises `AttributeError`
(`feature.get("properties", ...).get(...)` with an empty-dict default calls
`.get` on the list), instead
of treating the malformed field as empty as the spec requires. -/
theorem processFeature_raises_on_nondict_properties :
    processFeature (tl "https://api.dive.edito.eu/data") (tl "c") (tl "acoustic")
        (tl "acoustic")
        (.obj [(tl "id", Json.str (tl "x")),
               (tl "properties", Json.arr [.str (tl "acoustic")])])
      = .error .attributeError := by
  rfl

/-- C2 counterexample: a feature whose whole-feature term scan succeeds but
whose `productIdentifier`/`title` are absent produces no `Match` — the
baseline behavior claimed by the spec does not hold, and the strictness is
hard-coded rather than flag-controlled. -/
theorem match_not_built_despite_term_hit :
    contains_term
        (.obj [(tl "id", Json.str (tl "x")),
               (tl "description", Json.str (tl "Acoustic data"))]) (tl "acoustic") = true
      ∧ processFeature (tl "b") (tl "c") (tl "acoustic") (tl "acoustic")
          (.obj [(tl "id", Json.str (tl "x")),
                 (tl "description", Json.str (tl "Acoustic data"))])
        = .ok none := by
  exact ⟨rfl, rfl⟩

/-- C2 amended: for a dict feature whose `properties` field (defaulting to an
empty dict) is a dict, a `Match` is constructed iff the whole-feature scan
finds the lower-cased query AND the stringified `id`, `productIdentifier` and
`title` are all non-empty; this strictness is hard-coded in the scan body,
not exposed as a flag. -/
theorem processFeature_match_iff (base cid q : List Char) (kvs pkvs : PyDict)
    (hprops : pyGetD kvs (tl "properties") (.obj []) = .obj pkvs) :
    (∃ m, processFeature base cid (lowerL q) q (.obj kvs) = .ok (some m)) ↔
      (contains_term (.obj kvs) (lowerL q) = true
        ∧ pyStr (pyGetD kvs (tl "id") (.str [])) ≠ []
        ∧ pyStr (pyGetD pkvs (tl "productIdentifier") (.str [])) ≠ []
        ∧ pyStr (pyGetD pkvs (tl "title") (.str [])) ≠ []) := by
  unfold processFeature
  simp only [hprops]
  by_cases hct : contains_term (.obj kvs) (lowerL q) = true
  · by_cases h1 : pyStr (pyGetD kvs (tl "id") (.str [])) = []
    · simp [h1, List.isEmpty_iff, hct, Except.ok.injEq]
    · by_cases h2 : pyStr (pyGetD pkvs (tl "productIdentifier") (.str [])) = []
      · simp [h1, h2, List.isEmpty_iff, hct, Except.ok.injEq]
      · by_cases h3 : pyStr (pyGetD pkvs (tl "title") (.str [])) = []
        · simp [h1, h2, h3, List.isEmpty_iff, hct, Except.ok.injEq]
        · simp [h1, h2, h3, List.isEmpty_iff, hct, Except.ok.injEq]
  · simp [hct]

/-- Witness for C2 amended: a concrete feature with non-empty id,
productIdentifier and title whose title matches the query does produce a
`Match`. -/
theorem processFeature_match_iff_witness :
    pyGetD [(tl "id", Json.str (tl "i")),
            (tl "properties",
              Json.obj [(tl "productIdentifier", Json.str (tl "p")),
                        (tl "title", Json.str (tl "Koster"))])]
        (tl "properties") (.obj [])
        = .obj [(tl "productIdentifier", Json.str (tl "p")),
                (tl "title", Json.str (tl "Koster"))]
      ∧ ∃ m, processFeature (tl "b") (tl "c") (lowerL (tl "Koster")) (tl "Koster")
          (.obj [(tl "id", Json.str (tl "i")),
                 (tl "properties",
                   Json.obj [(tl "productIdentifier", Json.str (tl "p")),
                             (tl "title", Json.str (tl "Koster"))])])
          = .ok (some m) :=
  ⟨rfl, (processFeature_match_iff (tl "b") (tl "c") (tl "Koster")
      [(tl "id", Json.str (tl "i")),
       (tl "properties",
         Json.obj [(tl "productIdentifier", Json.str (tl "p")),
                   (tl "title", Json.str (tl "Koster"))])]
      [(tl "productIdentifier", Json.str (tl "p")),
       (tl "title", Json.str (tl "Koster"))]
      rfl).2
    ⟨rfl, by decide, by decide, by decide⟩⟩

/-- C5: with `stop_on_first_hit` enabled, as soon as a fetched page yields at
least one match the scan returns the accumulated matches and hit count for
that page without consulting anything else — in particular the page's `next`
link is never followed (the conclusion pins the server at `url` only). -/
theorem scan_stops_on_first_hit
    (server : List Char → Option Json) (base cid query url : List Char)
    (fuel : Nat) (acc : List Match) (hits : Nat) (kvs : PyDict) (pm : List Match)
    (hurl : url ≠ [])
    (hserver : server url = some (.obj kvs))
    (hpm : processFeatures base cid (lowerL query) query (getFeatures kvs) = .ok pm)
    (hne : pm ≠ []) :
    scanGo server base cid query (lowerL query) true (some url) (fuel + 1) acc hits
      = .ok (acc ++ pm, hits + pm.length) := by
  unfold scanGo
  have h1 : url.isEmpty = false := by
    simp [List.isEmpty_iff, hurl]
  have h2 : pm.isEmpty = false := by
    simp [List.isEmpty_iff, hne]
  simp only [h1, Bool.false_eq_true, if_false, hserver, hpm, h2, if_true]

/-- Witness for C5: a concrete first page with exactly one matching feature
and a `next` link to a second page that also matches; the scan returns that
single hit and ignores the second page. -/
theorem scan_stops_on_first_hit_witness :
    (tl "u1" ≠ ([] : List Char))
      ∧ (fun u => if u = tl "u1"
            then some (Json.obj
              [(tl "features", Json.arr
                 [Json.obj [(tl "id", Json.str (tl "i1")),
                            (tl "properties",
                              Json.obj [(tl "productIdentifier", Json.str (tl "p1")),
                                        (tl "title", Json.str (tl "Koster historical"))])]]),
               (tl "links", Json.arr
                 [Json.obj [(tl "rel", Json.str (tl "next")),
                            (tl "href", Json.str (tl "u2"))]])])
            else if u = tl "u2"
            then some (Json.obj
              [(tl "features", Json.arr
                 [Json.obj [(tl "id", Json.str (tl "i2")),
                            (tl "properties",
                              Json.obj [(tl "productIdentifier", Json.str (tl "p2")),
                                        (tl "title", Json.str (tl "Koster historical"))])]])])
            else none) (tl "u1")
          = some (Json.obj
              [(tl "features", Json.arr
                 [Json.obj [(tl "id", Json.str (tl "i1")),
                            (tl "properties",
                              Json.obj [(tl "productIdentifier", Json.str (tl "p1")),
                                        (tl "title", Json.str (tl "Koster historical"))])]]),
               (tl "links", Json.arr
                 [Json.obj [(tl "rel", Json.str (tl "next")),
                            (tl "href", Json.str (tl "u2"))]])])
      ∧ processFeatures (tl "B") (tl "c1") (lowerL (tl "koster")) (tl "koster")
          (getFeatures
            [(tl "features", Json.arr
               [Json.obj [(tl "id", Json.str (tl "i1")),
                          (tl "properties",
                            Json.obj [(tl "productIdentifier", Json.str (tl "p1")),
                                      (tl "title", Json.str (tl "Koster historical"))])]]),
             (tl "links", Json.arr
               [Json.obj [(tl "rel", Json.str (tl "next")),
                          (tl "href", Json.str (tl "u2"))]])])
          = .ok [{ item_id := tl "i1"
                   collection := tl "c1"
                   product_identifier := tl "p1"
                   item_title := tl "Koster historical"
                   datetime := none
                   api_item_url := tl "B" ++ tl "/collections/" ++ tl "c1"
                     ++ tl "/items/" ++ tl "i1"
                   viewer_url := viewer_url (tl "c1") (tl "i1")
                   matching_assets := [] }]
      ∧ scanGo
          (fun u => if u = tl "u1"
            then some (Json.obj
              [(tl "features", Json.arr
                 [Json.obj [(tl "id", Json.str (tl "i1")),
                            (tl "properties",
                              Json.obj [(tl "productIdentifier", Json.str (tl "p1")),
                                        (tl "title", Json.str (tl "Koster historical"))])]]),
               (tl "links", Json.arr
                 [Json.obj [(tl "rel", Json.str (tl "next")),
                            (tl "href", Json.str (tl "u2"))]])])
            else if u = tl "u2"
            then some (Json.obj
              [(tl "features", Json.arr
                 [Json.obj [(tl "id", Json.str (tl "i2")),
                            (tl "properties",
                              Json.obj [(tl "productIdentifier", Json.str (tl "p2")),
                                        (tl "title", Json.str (tl "Koster historical"))])]])])
            else none)
          (tl "B") (tl "c1") (tl "koster") (lowerL (tl "koster")) true
          (some (tl "u1")) 5 [] 0
          = .ok ([{ item_id := tl "i1"
                    collection := tl "c1"
                    product_identifier := tl "p1"
                    item_title := tl "Koster historical"
                    datetime := none
                    api_item_url := tl "B" ++ tl "/collections/" ++ tl "c1"
                      ++ tl "/items/" ++ tl "i1"
                    viewer_url := viewer_url (tl "c1") (tl "i1")
                    matching_assets := [] }], 1) := by
  refine ⟨by decide, rfl, rfl, ?_⟩
  exact scan_stops_on_first_hit _ _ _ _ _ 4 [] 0 _ _ (by decide) rfl rfl
    (List.cons_ne_nil _ _)

theorem initialUrl_ne_nil (base cid : List Char) (limit : Int) :
    initialUrl base cid limit ≠ [] := by
  intro h
  have hlen := congrArg List.length h
  rw [initialUrl] at hlen
  simp only [List.length_append, List.length_nil] at hlen
  have h13 : (tl "/collections/").length = 13 := rfl
  omega

/-- Two servers agree on (at least) the first `n` pages of the `next`-link
chain starting at the given URL: whenever the loop would fetch a page within
that budget, both servers return the same response, and the chain is chased
through that response's `next` link. -/
def AgreeUpTo (server serverB : List Char → Option Json) :
    Option (List Char) → Nat → Prop
  | some url, n + 1 =>
      url ≠ [] →
        server url = serverB url ∧
          (match server url with
           | some (.obj kvs) => AgreeUpTo server serverB (get_next_link kvs) n
           | _ => True)
  | _, _ => True

theorem scanGo_agree (server serverB : List Char → Option Json)
    (base cid query qLower : List Char) (stop : Bool) :
    ∀ (fuel : Nat) (nextUrl : Option (List Char)) (acc : List Match) (hits : Nat),
      AgreeUpTo server serverB nextUrl fuel →
      scanGo server base cid query qLower stop nextUrl fuel acc hits
        = scanGo serverB base cid query qLower stop nextUrl fuel acc hits := by
  intro fuel
  induction fuel with
  | zero =>
    intro nextUrl acc hits _
    cases nextUrl <;> rfl
  | succ k ih =>
    intro nextUrl acc hits hagree
    cases nextUrl with
    | none => rfl
    | some url =>
      by_cases hurl : url = []
      · subst hurl
        rfl
      · obtain ⟨heq, hrest⟩ := hagree hurl
        unfold scanGo
        have h1 : url.isEmpty = false := by simp [List.isEmpty_iff, hurl]
        simp only [h1, Bool.false_eq_true, if_false]
        rw [← heq]
        cases hsv : server url with
        | none => rfl
        | some fc =>
          rw [hsv] at hrest
          cases fc with
          | obj kvs =>
            simp only at hrest
            dsimp only
            cases hpf : processFeatures base cid qLower query (getFeatures kvs) with
            | error e => rfl
            | ok pm =>
              dsimp only
              by_cases hne : pm.isEmpty
              · simp only [hne, if_true]
                exact ih (get_next_link kvs) acc hits hrest
              · simp only [hne, Bool.false_eq_true, if_false]
                cases stop with
                | true => rfl
                | false =>
                  exact ih (get_next_link kvs) (acc ++ pm) (hits + pm.length) hrest
          | null => rfl
          | bool b => rfl
          | num n => rfl
          | str s => rfl
          | arr xs => rfl

/-- C6: two facts about the page budget of `_scan_collection_items`.  First,
the scan result depends on at most the first `maxPages` pages of the
`next`-link chain (so at most `maxPages` pages are ever fetched, and the
loop terminates within that budget or at a missing `next` link).  Second,
with `maxPages = 1` the scan is exactly the processing of the first page:
only the hits found on page 1 are returned. -/
theorem scan_respects_max_pages (server serverB : List Char → Option Json)
    (base cid query : List Char) (limit : Int) (maxPages : Nat) (stop : Bool) :
    (AgreeUpTo server serverB (some (initialUrl base cid limit)) maxPages →
        scan_collection_items server base cid query limit maxPages stop
          = scan_collection_items serverB base cid query limit maxPages stop)
      ∧ scan_collection_items server base cid query limit 1 stop
          = (match server (initialUrl base cid limit) with
             | none => .error .httpError
             | some (.obj kvs) =>
                 (processFeatures base cid (lowerL query) query (getFeatures kvs)).map
                   (fun pm => (pm, pm.length))
             | some _ => .error .attributeError) := by
  constructor
  · intro h
    exact scanGo_agree server serverB base cid query (lowerL query) stop maxPages
      (some (initialUrl base cid limit)) [] 0 h
  · unfold scan_collection_items
    unfold scanGo
    have h1 : (initialUrl base cid limit).isEmpty = false := by
      simp [List.isEmpty_iff, initialUrl_ne_nil]
    simp only [h1, Bool.false_eq_true, if_false]
    cases server (initialUrl base cid limit) with
    | none => rfl
    | some fc =>
      cases fc with
      | obj kvs =>
        dsimp only
        cases hpf : processFeatures base cid (lowerL query) query (getFeatures kvs) with
        | error e => rfl
        | ok pm =>
          dsimp only [Except.map]
          by_cases hne : pm.isEmpty
          · have hpmnil : pm = [] := List.isEmpty_iff.mp hne
            subst hpmnil
            simp only [hne, if_true]
            cases get_next_link kvs <;> rfl
          · simp only [hne, Bool.false_eq_true, if_false]
            cases stop with
            | true => simp
            | false =>
              cases get_next_link kvs <;> simp [scanGo]
      | null => rfl
      | bool b => rfl
      | num n => rfl
      | str s => rfl
      | arr xs => rfl

/-- Witness for C6: a three-page collection of hits scanned with
`maxPages = 1` ignores pages 2 and 3 (a server missing those pages gives the
same result) and returns exactly the single page-1 hit. -/
theorem scan_respects_max_pages_witness :
    AgreeUpTo
        (fun u => if u = initialUrl (tl "B") (tl "c1") 200
          then some (Json.obj
            [(tl "features", Json.arr
               [Json.obj [(tl "id", Json.str (tl "i1")),
                          (tl "properties",
                            Json.obj [(tl "productIdentifier", Json.str (tl "p1")),
                                      (tl "title", Json.str (tl "Koster historical"))])]]),
             (tl "links", Json.arr
               [Json.obj [(tl "rel", Json.str (tl "next")),
                          (tl "href", Json.str (tl "n2"))]])])
          else if u = tl "n2"
          then some (Json.obj
            [(tl "features", Json.arr
               [Json.obj [(tl "id", Json.str (tl "i2")),
                          (tl "properties",
                            Json.obj [(tl "productIdentifier", Json.str (tl "p2")),
                                      (tl "title", Json.str (tl "Koster historical"))])]]),
             (tl "links", Json.arr
               [Json.obj [(tl "rel", Json.str (tl "next")),
                          (tl "href", Json.str (tl "n3"))]])])
          else if u = tl "n3"
          then some (Json.obj
            [(tl "features", Json.arr
               [Json.obj [(tl "id", Json.str (tl "i3")),
                          (tl "properties",
                            Json.obj [(tl "productIdentifier", Json.str (tl "p3")),
                                      (tl "title", Json.str (tl "Koster historical"))])]])])
          else none)
        (fun u => if u = initialUrl (tl "B") (tl "c1") 200
          then some (Json.obj
            [(tl "features", Json.arr
               [Json.obj [(tl "id", Json.str (tl "i1")),
                          (tl "properties",
                            Json.obj [(tl "productIdentifier", Json.str (tl "p1")),
                                      (tl "title", Json.str (tl "Koster historical"))])]]),
             (tl "links", Json.arr
               [Json.obj [(tl "rel", Json.str (tl "next")),
                          (tl "href", Json.str (tl "n2"))]])])
          else none)
        (some (initialUrl (tl "B") (tl "c1") 200)) 1
      ∧ scan_collection_items
          (fun u => if u = initialUrl (tl "B") (tl "c1") 200
            then some (Json.obj
              [(tl "features", Json.arr
                 [Json.obj [(tl "id", Json.str (tl "i1")),
                            (tl "properties",
                              Json.obj [(tl "productIdentifier", Json.str (tl "p1")),
                                        (tl "title", Json.str (tl "Koster historical"))])]]),
               (tl "links", Json.arr
                 [Json.obj [(tl "rel", Json.str (tl "next")),
                            (tl "href", Json.str (tl "n2"))]])])
            else if u = tl "n2"
            then some (Json.obj
              [(tl "features", Json.arr
                 [Json.obj [(tl "id", Json.str (tl "i2")),
                            (tl "properties",
                              Json.obj [(tl "productIdentifier", Json.str (tl "p2")),
                                        (tl "title", Json.str (tl "Koster historical"))])]]),
               (tl "links", Json.arr
                 [Json.obj [(tl "rel", Json.str (tl "next")),
                            (tl "href", Json.str (tl "n3"))]])])
            else if u = tl "n3"
            then some (Json.obj
              [(tl "features", Json.arr
                 [Json.obj [(tl "id", Json.str (tl "i3")),
                            (tl "properties",
                              Json.obj [(tl "productIdentifier", Json.str (tl "p3")),
                                        (tl "title", Json.str (tl "Koster historical"))])]])])
            else none)
          (tl "B") (tl "c1") (tl "koster") 200 1 false
          = scan_collection_items
              (fun u => if u = initialUrl (tl "B") (tl "c1") 200
                then some (Json.obj
                  [(tl "features", Json.arr
                     [Json.obj [(tl "id", Json.str (tl "i1")),
                                (tl "properties",
                                  Json.obj [(tl "productIdentifier", Json.str (tl "p1")),
                                            (tl "title", Json.str (tl "Koster historical"))])]]),
                   (tl "links", Json.arr
                     [Json.obj [(tl "rel", Json.str (tl "next")),
                                (tl "href", Json.str (tl "n2"))]])])
                else none)
              (tl "B") (tl "c1") (tl "koster") 200 1 false
      ∧ scan_collection_items
          (fun u => if u = initialUrl (tl "B") (tl "c1") 200
            then some (Json.obj
              [(tl "features", Json.arr
                 [Json.obj [(tl "id", Json.str (tl "i1")),
                            (tl "properties",
                              Json.obj [(tl "productIdentifier", Json.str (tl "p1")),
                                        (tl "title", Json.str (tl "Koster historical"))])]]),
               (tl "links", Json.arr
                 [Json.obj [(tl "rel", Json.str (tl "next")),
                            (tl "href", Json.str (tl "n2"))]])])
            else if u = tl "n2"
            then some (Json.obj
              [(tl "features", Json.arr
                 [Json.obj [(tl "id", Json.str (tl "i2")),
                            (tl "properties",
                              Json.obj [(tl "productIdentifier", Json.str (tl "p2")),
                                        (tl "title", Json.str (tl "Koster historical"))])]]),
               (tl "links", Json.arr
                 [Json.obj [(tl "rel", Json.str (tl "next")),
                            (tl "href", Json.str (tl "n3"))]])])
            else if u = tl "n3"
            then some (Json.obj
              [(tl "features", Json.arr
                 [Json.obj [(tl "id", Json.str (tl "i3")),
                            (tl "properties",
                              Json.obj [(tl "productIdentifier", Json.str (tl "p3")),
                                        (tl "title", Json.str (tl "Koster historical"))])]])])
            else none)
          (tl "B") (tl "c1") (tl "koster") 200 1 false
          = .ok ([{ item_id := tl "i1"
                    collection := tl "c1"
                    product_identifier := tl "p1"
                    item_title := tl "Koster historical"
                    datetime := none
                    api_item_url := tl "B" ++ tl "/collections/" ++ tl "c1"
                      ++ tl "/items/" ++ tl "i1"
                    viewer_url := viewer_url (tl "c1") (tl "i1")
                    matching_assets := [] }], 1) := by
  refine ⟨fun _ => ⟨rfl, trivial⟩, ?_, by rfl⟩
  exact (scan_respects_max_pages _ _ (tl "B") (tl "c1") (tl "koster") 200 1 false).1
    (fun _ => ⟨rfl, trivial⟩)

/-- Embeds `_format_assets_csv`: empty asset list renders as the empty
string, otherwise the per-asset cells
(`str(asset.get(k,'-'))` for `key`, `type`, `href`, separated by a bar)
joined by semicolons. -/
def format_assets_csv (assets : List PyDict) : List Char :=
  if assets.isEmpty then []
  else
    List.intercalate (tl ";")
      (assets.map fun a =>
        pyStr (pyGetD a (tl "key") (.str (tl "-"))) ++ tl "|"
          ++ pyStr (pyGetD a (tl "type") (.str (tl "-"))) ++ tl "|"
          ++ pyStr (pyGetD a (tl "href") (.str (tl "-"))))

/-- The header row written by `_save_results_csv`. -/
def csvHeader : List (List Char) :=
  [tl "collection", tl "item_id", tl "product_identifier", tl "item_title",
   tl "datetime", tl "api_item_url", tl "viewer_url", tl "matching_assets"]

/-- One data row of `_save_results_csv`.  The `x or ""` guards of the script
are kept: for the string fields they are the identity, for the optional
`datetime` they turn `None` into the empty string. -/
def csvRow (m : Match) : List (List Char) :=
  [m.collection, m.item_id,
   if m.product_identifier.isEmpty then [] else m.product_identifier,
   if m.item_title.isEmpty then [] else m.item_title,
   match m.datetime with
   | some d => if d.isEmpty then [] else d
   | none => [],
   m.api_item_url, m.viewer_url,
   format_assets_csv m.matching_assets]

/-- Embeds `_save_results_csv` at the level of rows and cells: one header
row, then one row per match.  (CSV quoting is the standard library writer's
concern and is outside the claims under study.) -/
def save_results_csv (ms : List Match) : List (List (List Char)) :=
  csvHeader :: ms.map csvRow

/-- C9 counterexample: a match whose single asset was captured with absent
`type`/`href` (stored as `None` by `_matching_assets`) renders the asset cell
as `k|None|None`, not `k||`: absent asset fields are not rendered as empty
strings, while the absent datetime in the same row is. -/
theorem csv_absent_asset_fields_render_none :
    save_results_csv
        [{ item_id := tl "i", collection := tl "c", product_identifier := tl "p",
           item_title := tl "t", datetime := none,
           api_item_url := tl "a", viewer_url := tl "v",
           matching_assets := [[(tl "key", Json.str (tl "k")),
                                (tl "type", Json.null), (tl "href", Json.null)]] }]
        = [csvHeader,
           [tl "c", tl "i", tl "p", tl "t", [], tl "a", tl "v", tl "k|None|None"]]
      ∧ tl "k|None|None" ≠ tl "k||" := by
  exact ⟨rfl, by decide⟩

/-- Shape of the asset dicts `_matching_assets` actually produces: exactly
the keys `key`, `type`, `href` in that order, the key a string and the other
two either a string or `None`. -/
def ScannerAssetShape (a : PyDict) : Prop :=
  ∃ k t h, a = [(tl "key", Json.str k), (tl "type", t), (tl "href", h)]
    ∧ (t = Json.null ∨ ∃ ts, t = Json.str ts)
    ∧ (h = Json.null ∨ ∃ hs, h = Json.str hs)

/-- Modelled from the spec (amended): the per-asset CSV cell with `None`
fields rendered as the literal string `None`. -/
def specAssetCell (a : PyDict) : List Char :=
  (match pyGet a (tl "key") with | some (.str k) => k | _ => []) ++ tl "|"
    ++ (match pyGet a (tl "type") with
        | some (.str t) => t
        | some .null => tl "None"
        | _ => []) ++ tl "|"
    ++ (match pyGet a (tl "href") with
        | some (.str h) => h
        | some .null => tl "None"
        | _ => [])

/-- Modelled from the spec (amended): a CSV data row described directly on
the `Match` record — absent product identifier, item title and datetime as
empty strings, the asset sequence flattened with `None` type/href rendered
as `None`. -/
def specCsvRow (m : Match) : List (List Char) :=
  [m.collection, m.item_id, m.product_identifier, m.item_title,
   m.datetime.getD [], m.api_item_url, m.viewer_url,
   List.intercalate (tl ";") (m.matching_assets.map specAssetCell)]

theorem scanner_asset_cell (k : List Char) (t h : Json)
    (ht : t = Json.null ∨ ∃ ts, t = Json.str ts)
    (hh : h = Json.null ∨ ∃ hs, h = Json.str hs) :
    pyStr (pyGetD [(tl "key", Json.str k), (tl "type", t), (tl "href", h)]
          (tl "key") (.str (tl "-"))) ++ tl "|"
        ++ pyStr (pyGetD [(tl "key", Json.str k), (tl "type", t), (tl "href", h)]
          (tl "type") (.str (tl "-"))) ++ tl "|"
        ++ pyStr (pyGetD [(tl "key", Json.str k), (tl "type", t), (tl "href", h)]
          (tl "href") (.str (tl "-")))
      = specAssetCell [(tl "key", Json.str k), (tl "type", t), (tl "href", h)] := by
  have ek : pyGet [(tl "key", Json.str k), (tl "type", t), (tl "href", h)] (tl "key")
      = some (Json.str k) := by
    rw [pyGet, if_pos rfl]
  have et : pyGet [(tl "key", Json.str k), (tl "type", t), (tl "href", h)] (tl "type")
      = some t := by
    rw [pyGet, if_neg (by decide), pyGet, if_pos rfl]
  have eh : pyGet [(tl "key", Json.str k), (tl "type", t), (tl "href", h)] (tl "href")
      = some h := by
    rw [pyGet, if_neg (by decide), pyGet, if_neg (by decide), pyGet, if_pos rfl]
  rw [specAssetCell, pyGetD, pyGetD, pyGetD, ek, et, eh]
  rcases ht with rfl | ⟨ts, rfl⟩ <;> rcases hh with rfl | ⟨hs, rfl⟩ <;> rfl

theorem csvRow_eq_specCsvRow (m : Match)
    (hshape : ∀ a ∈ m.matching_assets, ScannerAssetShape a) :
    csvRow m = specCsvRow m := by
  have hpid : (if m.product_identifier.isEmpty then [] else m.product_identifier)
      = m.product_identifier := by
    cases hp : m.product_identifier with
    | nil => simp
    | cons c cs => simp
  have httl : (if m.item_title.isEmpty then [] else m.item_title) = m.item_title := by
    cases ht : m.item_title with
    | nil => simp
    | cons c cs => simp
  have hdt : (match m.datetime with
      | some d => if d.isEmpty then [] else d
      | none => ([] : List Char)) = m.datetime.getD [] := by
    cases hd : m.datetime with
    | none => rfl
    | some d => cases d <;> simp [Option.getD]
  have hassets : format_assets_csv m.matching_assets
      = List.intercalate (tl ";") (m.matching_assets.map specAssetCell) := by
    rw [format_assets_csv]
    by_cases hne : m.matching_assets.isEmpty
    · rw [if_pos hne, List.isEmpty_iff.mp hne]
      rfl
    · rw [if_neg hne]
      congr 1
      apply List.map_congr_left
      intro a ha
      obtain ⟨k, t, h, rfl, ht, hh⟩ := hshape a ha
      exact scanner_asset_cell k t h ht hh
  rw [csvRow, specCsvRow, hpid, httl, hdt, hassets]

/-- C9 amended: for every list of matches whose captured assets have the
shape `_matching_assets` produces, the CSV export is one header row followed
by one row per match; absent product identifier, item title and datetime
render as the empty string, while the asset cells render absent (i.e.
`None`-valued) `type`/`href` as the literal string `None`, joined
`key|type|href` with `;` across assets. -/
theorem save_results_csv_amended (ms : List Match)
    (hshape : ∀ m ∈ ms, ∀ a ∈ m.matching_assets, ScannerAssetShape a) :
    save_results_csv ms = csvHeader :: ms.map specCsvRow := by
  rw [save_results_csv]
  congr 1
  apply List.map_congr_left
  intro m hm
  exact csvRow_eq_specCsvRow m (hshape m hm)

/-- Witness for C9 amended at a one-match list with one scanner-shaped
asset. -/
theorem save_results_csv_amended_witness :
    (∀ m ∈ [{ item_id := tl "i", collection := tl "c",
              product_identifier := tl "p", item_title := tl "t",
              datetime := none, api_item_url := tl "a", viewer_url := tl "v",
              matching_assets := [[(tl "key", Json.str (tl "k")),
                                   (tl "type", Json.str (tl "ct")),
                                   (tl "href", Json.null)]] : Match}],
        ∀ a ∈ m.matching_assets, ScannerAssetShape a)
      ∧ save_results_csv
          [{ item_id := tl "i", collection := tl "c",
             product_identifier := tl "p", item_title := tl "t",
             datetime := none, api_item_url := tl "a", viewer_url := tl "v",
             matching_assets := [[(tl "key", Json.str (tl "k")),
                                  (tl "type", Json.str (tl "ct")),
                                  (tl "href", Json.null)]] }]
          = csvHeader :: List.map specCsvRow
              [{ item_id := tl "i", collection := tl "c",
                 product_identifier := tl "p", item_title := tl "t",
                 datetime := none, api_item_url := tl "a", viewer_url := tl "v",
                 matching_assets := [[(tl "key", Json.str (tl "k")),
                                      (tl "type", Json.str (tl "ct")),
                                      (tl "href", Json.null)]] }] := by
  constructor
  · intro m hm a ha
    rw [List.mem_singleton] at hm
    subst hm
    rw [List.mem_singleton] at ha
    subst ha
    exact ⟨tl "k", Json.str (tl "ct"), Json.null, rfl,
      .inr ⟨tl "ct", rfl⟩, .inl rfl⟩
  · apply save_results_csv_amended
    intro m hm a ha
    rw [List.mem_singleton] at hm
    subst hm
    rw [List.mem_singleton] at ha
    subst ha
    exact ⟨tl "k", Json.str (tl "ct"), Json.null, rfl,
      .inr ⟨tl "ct", rfl⟩, .inl rfl⟩

/-- Python default whitespace for `str.strip()` (ASCII subset). -/
def pySpace (c : Char) : Bool :=
  c = ' ' || c = Char.ofNat 9 || c = Char.ofNat 10 || c = Char.ofNat 13
    || c = Char.ofNat 11 || c = Char.ofNat 12

/-- Python `str.strip()`: drop whitespace from both ends. -/
def pyStrip (s : List Char) : List Char :=
  ((s.dropWhile pySpace).reverse.dropWhile pySpace).reverse

/-- Embeds
`collection_terms = [c.strip() for c in args.collections.split(",") if c.strip()]`. -/
def collectionTerms (s : List Char) : List (List Char) :=
  ((s.splitOn ',').map pyStrip).filter fun c => !c.isEmpty

/-- Embeds the collection-selection block of `main` (lines 443–463).  The
regex engine behind `_compile_optional_regex` and `_collection_matches` is
external to this development, so the composite test "collection satisfies
the pattern compiled from `term`" is abstracted as the `matcher` argument;
`_compile_optional_regex` returns `None` exactly for an empty (falsy)
pattern, which the loop skips, so that case is kept explicit.  The `seen`
set de-duplicates by stripped stringified collection id, and skips
collections with an empty id. -/
def selectCollections (matcher : List Char → PyDict → Bool)
    (allCollections : List PyDict) (allFlag : Bool) (terms : List (List Char)) :
    List PyDict :=
  if allFlag || terms.isEmpty then allCollections
  else
    (terms.foldl
      (fun st term =>
        if term.isEmpty then st
        else
          allCollections.foldl
            (fun st coll =>
              let cid := pyStrip (pyStr (pyGetD coll (tl "id") (.str [])))
              if cid.isEmpty || st.1.contains cid then st
              else if matcher term coll then (cid :: st.1, st.2 ++ [coll]) else st)
            st)
      (([], []) : List (List Char) × List PyDict)).2

/-- C8: with an empty pattern list the selection takes the same branch as
`--all-collections` and returns every collection in input order; this also
holds for the term list the CLI derives from an empty `--collections`
string, and coincides with the all-collections mode for any pattern list. -/
theorem selectCollections_empty_patterns
    (matcher : List Char → PyDict → Bool) (cols : List PyDict)
    (ts : List (List Char)) :
    collectionTerms [] = []
      ∧ selectCollections matcher cols false (collectionTerms []) = cols
      ∧ selectCollections matcher cols false [] = cols
      ∧ selectCollections matcher cols false [] = selectCollections matcher cols true ts := by
  exact ⟨rfl, rfl, rfl, rfl⟩

/-- Embeds `_get_collections` minus the transport: given the parsed payload
of `GET base/collections`, read `payload.get("collections") or []`
(raising `AttributeError` on a non-dict payload), treat a non-list value as
no collections, and keep only the dict entries. -/
def get_collections (payload : Json) : Except PyErr (List PyDict) :=
  match payload with
  | .obj kvs =>
      let c0 := (pyGet kvs (tl "collections")).getD .null
      let cols := if pyTruthy c0 then c0 else .arr []
      match cols with
      | .arr xs =>
          .ok (xs.filterMap fun x => match x with | .obj c => some c | _ => none)
      | _ => .ok []
  | _ => .error .attributeError

/-- Externally observable events of one invocation of `main`, at the
granularity the claims need: printing the no-collections notice, printing
the selected collection list, scanning a collection's items (which is when
item pages get fetched), and writing the results file. -/
inductive Ev where
  | printedNoCollections
  | printedCollectionList (cols : List PyDict)
  | scannedCollection (cid : List Char)
  | wroteResults (csvFmt : Bool) (nMatches : Nat)

/-- The CLI arguments `main` consumes after parsing (`--format` is kept as
the flag `fmtCsv`; output path handling does not affect the claims). -/
structure Args where
  query : List Char
  base : List Char
  collections : List Char
  all_collections : Bool
  list_collections : Bool
  limit_per_page : Int
  max_pages : Nat
  stop_on_first_hit : Bool
  fmtCsv : Bool

/-- Embeds the scan loop of `main` (lines 493–531): for each selected
collection, skip an empty stripped id, otherwise scan its items and
accumulate matches and hit counts; the first exception aborts the run. -/
def scanAll (itemServer : List Char → Option Json) (args : Args) :
    List PyDict → Except PyErr (List Ev × List Match × Nat)
  | [] => .ok ([], [], 0)
  | c :: rest =>
      let cid := pyStrip (pyStr (pyGetD c (tl "id") (.str [])))
      if cid.isEmpty then scanAll itemServer args rest
      else
        match scan_collection_items itemServer args.base cid args.query
            args.limit_per_page args.max_pages args.stop_on_first_hit with
        | .error e => .error e
        | .ok (ms, h) =>
            match scanAll itemServer args rest with
            | .error e => .error e
            | .ok (evs, ms2, h2) =>
                .ok (.scannedCollection cid :: evs, ms ++ ms2, h + h2)

/-- Embeds the body of `main` (lines 436–573) over abstract transports: the
`/collections` response (`none` = HTTP failure), an item-page server, and
the parsed arguments.  Returns the event trace and the exit status.
Branches in source order: empty selection prints the notice and returns 0;
`--list-collections` or an empty query prints the selected collection list
and returns 0 before any item scan; otherwise every selected collection is
scanned and the results file is written in the requested format. -/
def mainModel (matcher : List Char → PyDict → Bool) (colResp : Option Json)
    (itemServer : List Char → Option Json) (args : Args) :
    Except PyErr (List Ev × Nat) :=
  match colResp with
  | none => .error .httpError
  | some payload =>
      match get_collections payload with
      | .error e => .error e
      | .ok allCols =>
          let terms := collectionTerms args.collections
          let selected := selectCollections matcher allCols args.all_collections terms
          if selected.isEmpty then .ok ([.printedNoCollections], 0)
          else if args.list_collections || args.query.isEmpty then
            .ok ([.printedCollectionList selected], 0)
          else
            match scanAll itemServer args selected with
            | .error e => .error e
            | .ok (evs, ms, _hits) =>
                .ok (evs ++ [.wroteResults args.fmtCsv ms.length], 0)

/-- C10: with an empty query (and a successful collections fetch), `main`
prints the selected collection list (or the no-collections notice) and
returns exit status 0; the result does not depend on the item-page server
(no item pages are fetched) and contains no write event (no results file is
written). -/
theorem mainModel_empty_query (matcher : List Char → PyDict → Bool)
    (payload : Json) (allCols : List PyDict)
    (itemServer : List Char → Option Json) (args : Args)
    (hq : args.query = [])
    (hcols : get_collections payload = .ok allCols) :
    mainModel matcher (some payload) itemServer args
      = .ok
          ((if (selectCollections matcher allCols args.all_collections
                  (collectionTerms args.collections)).isEmpty
            then [Ev.printedNoCollections]
            else [Ev.printedCollectionList
              (selectCollections matcher allCols args.all_collections
                (collectionTerms args.collections))]), 0) := by
  unfold mainModel
  by_cases hsel : (selectCollections matcher allCols args.all_collections
      (collectionTerms args.collections)).isEmpty
  · simp [hcols, hq, hsel]
  · simp [hcols, hq, hsel]

/-- Witness for C10: a concrete one-collection catalog queried with an empty
query lists the collection and exits 0, independently of an item server that
would fail every fetch. -/
theorem mainModel_empty_query_witness :
    (Args.query ⟨[], tl "B", [], false, false, 200, 50, false, false⟩ = [])
      ∧ get_collections
          (Json.obj [(tl "collections", Json.arr
            [Json.obj [(tl "id", Json.str (tl "c1")),
                       (tl "title", Json.str (tl "T1"))]])])
          = .ok [[(tl "id", Json.str (tl "c1")), (tl "title", Json.str (tl "T1"))]]
      ∧ mainModel (fun _ _ => false)
          (some (Json.obj [(tl "collections", Json.arr
            [Json.obj [(tl "id", Json.str (tl "c1")),
                       (tl "title", Json.str (tl "T1"))]])]))
          (fun _ => none)
          ⟨[], tl "B", [], false, false, 200, 50, false, false⟩
          = .ok ([Ev.printedCollectionList
              [[(tl "id", Json.str (tl "c1")), (tl "title", Json.str (tl "T1"))]]], 0) := by
  refine ⟨rfl, rfl, ?_⟩
  exact mainModel_empty_query (fun _ _ => false)
    (Json.obj [(tl "collections", Json.arr
      [Json.obj [(tl "id", Json.str (tl "c1")),
                 (tl "title", Json.str (tl "T1"))]])])
    [[(tl "id", Json.str (tl "c1")), (tl "title", Json.str (tl "T1"))]]
    (fun _ => none)
    ⟨[], tl "B", [], false, false, 200, 50, false, false⟩ rfl rfl
